import Mathlib

/-!
Shallow embedding of the cfb-discord-bot week/result ledger core
(`src/db.py`, plus the `user_win` derivation and bye flow of
`src/commands/log_game.py`), and proofs of the specification claims.

The relational store is modelled as explicit list-valued state (`DB`).
Each SQL statement of the source becomes a pure function on that state.
`now()` is modelled by an explicit time argument `t : Nat` passed to each
operation.  The `games` table carries the schema constraint
`UNIQUE (week_num, discord_id)` (spec §6 persisted layout; it is what
`ON CONFLICT (week_num, discord_id)` resolves against), so an upsert can
conflict with at most one existing row.
-/

namespace CfbBot

/-- `teams` table row (`teams(team_id PK, name)`). -/
structure Team where
  team_id : Int
  name : String
deriving DecidableEq

/-- `users` table row (`users(discord_id PK, team_id nullable, admin, username)`). -/
structure User where
  discord_id : Int
  team_id : Option Int
  admin : Bool
  username : String
deriving DecidableEq

/-- `weeks` table row (`weeks(week_num, year, active, created_at)`). -/
structure Week where
  week_num : Int
  year : Int
  active : Bool
  created_at : Nat
deriving DecidableEq

/-- `games` table row
(`games(week_num, discord_id, year, opponent_id nullable, user_score,
opp_score, user_win nullable, bye, user_game, created_at, updated_at,
UNIQUE(week_num, discord_id))`). -/
structure Game where
  week_num : Int
  year : Int
  discord_id : Int
  opponent_id : Option Int
  user_score : Option Int
  opp_score : Option Int
  user_win : Option Bool
  bye : Bool
  user_game : Bool
  created_at : Nat
  updated_at : Nat
deriving DecidableEq

/-- The whole relational store. -/
structure DB where
  users : List User
  teams : List Team
  weeks : List Week
  games : List Game
deriving DecidableEq

/-- The `result` dict handed to `add_result` by the command layer
(`log_game.py` builds it with keys `discord_id`, `opponent_id`,
`user_score`, `opponent_score`, `user_win`, `notes`, and optionally
`bye`; `add_result` reads `bye` via `result.get("bye", False)`, which the
`bye : Bool` field models directly). -/
structure ReportInput where
  discord_id : Int
  opponent_id : Option Int
  user_score : Option Int
  opponent_score : Option Int
  user_win : Option Bool
  bye : Bool
  notes : Option String
deriving DecidableEq

/-- `get_active_week_row`: `SELECT ... FROM weeks WHERE active = TRUE LIMIT 1`. -/
def getActiveWeekRow (s : DB) : Option Week :=
  s.weeks.find? (fun w => w.active)

/-- `get_user`: `SELECT * FROM users WHERE discord_id = $1`. -/
def getUser (s : DB) (d : Int) : Option User :=
  s.users.find? (fun u => decide (u.discord_id = d))

/-- `get_user_by_team`: `SELECT * FROM users WHERE team_id = $1`. -/
def getUserByTeam (s : DB) (tid : Int) : Option User :=
  s.users.find? (fun u => decide (u.team_id = some tid))

/-- The `DO UPDATE` arm of the upsert in `add_result`: overwrite
`opponent_id`, `user_score`, `opp_score`, `user_win`, `bye`, refresh
`updated_at`; `year`, `user_game` and `created_at` are not in the SET list. -/
def updGame (g : Game) (opp : Option Int) (us osc : Option Int)
    (uw : Option Bool) (b : Bool) (t : Nat) : Game :=
  { g with opponent_id := opp, user_score := us, opp_score := osc,
           user_win := uw, bye := b, updated_at := t }

/-- The `INSERT` arm of the upsert in `add_result`: the column list omits
`user_game`, which therefore takes its column default (false). -/
def freshGame (week year d : Int) (opp : Option Int) (us osc : Option Int)
    (uw : Option Bool) (b : Bool) (t : Nat) : Game :=
  { week_num := week, year := year, discord_id := d, opponent_id := opp,
    user_score := us, opp_score := osc, user_win := uw, bye := b,
    user_game := false, created_at := t, updated_at := t }

/-- `INSERT INTO games ... ON CONFLICT (week_num, discord_id) DO UPDATE ...`
(the single query of `add_result`, used for both the primary and the
mirrored row).  By `UNIQUE (week_num, discord_id)` at most one row can
conflict, so updating the first key match is exact. -/
def upsertGame (gs : List Game) (week year d : Int) (opp : Option Int)
    (us osc : Option Int) (uw : Option Bool) (b : Bool) (t : Nat) : List Game :=
  match gs with
  | [] => [freshGame week year d opp us osc uw b t]
  | g :: rest =>
    if g.week_num = week ∧ g.discord_id = d then
      updGame g opp us osc uw b t :: rest
    else
      g :: upsertGame rest week year d opp us osc uw b t

/-- The third statement of `add_result`:
`UPDATE games SET user_game = TRUE, updated_at = now()
 WHERE week_num = $1 AND discord_id = ANY($2)` with `$2 = [reporter, opponent]`. -/
def markUserGames (gs : List Game) (week d1 d2 : Int) (t : Nat) : List Game :=
  gs.map (fun g =>
    if g.week_num = week ∧ (g.discord_id = d1 ∨ g.discord_id = d2) then
      { g with user_game := true, updated_at := t }
    else g)

/-- `reporter_team_id` as computed in `add_result`:
`reporter_user["team_id"] if reporter_user ... else None`. -/
def reporterTeamId (s : DB) (d : Int) : Option Int :=
  match getUser s d with
  | some u => u.team_id
  | none => none

/-- `mirror_user_win` in `add_result` (db.py lines 159-162):
`None if win is None else not win`. -/
def mirrorWin : Option Bool → Option Bool
  | none => none
  | some b => some (!b)

/-- `add_result(result)` (db.py lines 91-186).  Returns `none` exactly when
the `RuntimeError("No active week found...")` is raised.  Statement 1 is the
primary upsert; when the opponent team is user-owned and the report is not a
bye, statement 2 upserts the mirrored row (scores swapped, `user_win`
negated with `None` preserved, `opponent_id` = reporter's own team,
`bye = FALSE`) and statement 3 marks both rows `user_game = TRUE`. -/
def addResult (s : DB) (r : ReportInput) (t : Nat) : Option DB :=
  match getActiveWeekRow s with
  | none => none
  | some w =>
    let g1 := upsertGame s.games w.week_num w.year r.discord_id r.opponent_id
                r.user_score r.opponent_score r.user_win r.bye t
    match r.opponent_id with
    | none => some { s with games := g1 }
    | some opp =>
      if r.bye then some { s with games := g1 }
      else
        match getUserByTeam s opp with
        | none => some { s with games := g1 }
        | some opponentUser =>
          let g2 := upsertGame g1 w.week_num w.year opponentUser.discord_id
                      (reporterTeamId s r.discord_id)
                      r.opponent_score r.user_score (mirrorWin r.user_win) false t
          let g3 := markUserGames g2 w.week_num r.discord_id
                      opponentUser.discord_id t
          some { s with games := g3 }

/-- The state after only the first `_execute` of `add_result` has run.
`_execute` (db.py lines 46-49) acquires a fresh pooled connection per call
and runs the single statement in autocommit mode; `add_result` opens no
transaction around its three statements, so this intermediate state is the
durable one if execution stops (crash, connection loss) before the mirror
upsert. -/
def addResultFirstStatement (s : DB) (r : ReportInput) (t : Nat) : Option DB :=
  match getActiveWeekRow s with
  | none => none
  | some w =>
    some { s with games := upsertGame s.games w.week_num w.year r.discord_id
                    r.opponent_id r.user_score r.opponent_score r.user_win
                    r.bye t }

/-- The calendar rule inside `_advance_to_next_week`:
`if week_num == 21: (0, year+1) else (week_num+1, year)`. -/
def nextWeekPair (week year : Int) : Int × Int :=
  if week = 21 then (0, year + 1) else (week + 1, year)

/-- A Python dict value that may be an int or a string: the returned week
dict's `week_num` entry is overwritten with a label string for bowl weeks. -/
inductive CellVal where
  | int (n : Int)
  | str (s : String)
deriving DecidableEq

/-- The dict `_advance_to_next_week` returns: the `RETURNING` row converted
with `dict(...)`, then mutated — for `week_num` 21 and 16 an assignment to
`new_row[week_num]` (the integer key) adds an Offseason or Conference
Championships label entry (modelled by `extraLabels`), and for
`week_num > 16` the `week_num` entry itself is overwritten with the
interpolated label Bowl Week `week_num % 16`. -/
structure RetWeekRow where
  week_num : CellVal
  year : Int
  active : Bool
  created_at : Nat
  extraLabels : List (Int × String)
deriving DecidableEq

/-- `_advance_to_next_week(conn, week_num, year)` (db.py lines 291-334):
deactivate every active week, insert the next week per the calendar rule as
the new active row, and return the (label-mutated) dict of the inserted row.
The `try` block only mutates a plain dict, so the `except` arm never runs. -/
def advanceToNextWeek (s : DB) (week year : Int) (t : Nat) : DB × RetWeekRow :=
  let weeks1 := s.weeks.map (fun w => if w.active then { w with active := false } else w)
  let nw := (nextWeekPair week year).1
  let ny := (nextWeekPair week year).2
  let inserted : Week := { week_num := nw, year := ny, active := true, created_at := t }
  let ret0 : RetWeekRow :=
    { week_num := CellVal.int nw, year := ny, active := true,
      created_at := t, extraLabels := [] }
  let ret :=
    if week = 21 then { ret0 with extraLabels := [(21, "Offseason")] }
    else if week = 16 then { ret0 with extraLabels := [(16, "Conference Championships")] }
    else if 16 < week then
      { ret0 with week_num := CellVal.str ("Bowl Week " ++ toString (week % 16)) }
    else ret0
  ({ s with weeks := weeks1 ++ [inserted] }, ret)

/-- `advance_week()` (db.py lines 346-358): lock and read the active week;
if none, return `None` (state untouched); else advance. -/
def advanceWeek (s : DB) (t : Nat) : DB × Option RetWeekRow :=
  match getActiveWeekRow s with
  | none => (s, none)
  | some w =>
    let p := advanceToNextWeek s w.week_num w.year t
    (p.1, some p.2)

/-- `_users_report_counts(conn, week_num)` (db.py lines 336-344):
`COUNT(*)` over `users` and `COUNT(DISTINCT discord_id)` over
`games WHERE week_num = $1` (no year filter). -/
def usersReportCounts (s : DB) (week : Int) : Nat × Nat :=
  (s.users.length,
   (((s.games.filter (fun g => decide (g.week_num = week))).map
      (fun g => g.discord_id)).dedup).length)

/-- `maybe_auto_advance_week()` (db.py lines 360-378). -/
def maybeAutoAdvanceWeek (s : DB) (t : Nat) : DB × Option RetWeekRow :=
  match getActiveWeekRow s with
  | none => (s, none)
  | some w =>
    let counts := usersReportCounts s w.week_num
    if counts.1 = 0 then (s, none)
    else if counts.2 < counts.1 then (s, none)
    else
      let p := advanceToNextWeek s w.week_num w.year t
      (p.1, some p.2)

/-- `has_played_team_this_year(discord_id, opponent_id)` (db.py lines
194-216): false when no week is active; otherwise whether some `games` row
matches `discord_id`, `opponent_id` and the active week's `year`. -/
def hasPlayedTeamThisYear (s : DB) (d opp : Int) : Bool :=
  match getActiveWeekRow s with
  | none => false
  | some w =>
    s.games.any (fun g =>
      decide (g.discord_id = d ∧ g.opponent_id = some opp ∧ g.year = w.year))

/-- One output row of `get_standings`. -/
structure Standing where
  discord_id : Int
  wins : Nat
  losses : Nat
  ties : Nat
  total_games : Nat
deriving DecidableEq

/-- The aggregate `get_standings` computes for one `discord_id` group over
the year-filtered rows. -/
def standingFor (rows : List Game) (d : Int) : Standing :=
  let mine := rows.filter (fun g => decide (g.discord_id = d))
  { discord_id := d,
    wins := (mine.filter (fun g => decide (g.user_win = some true))).length,
    losses := (mine.filter (fun g => decide (g.user_win = some false))).length,
    ties := (mine.filter (fun g => decide (g.user_win = none))).length,
    total_games := mine.length }

/-- `ORDER BY wins DESC, losses ASC, ties DESC` as a relation on rows. -/
def standOrder (a b : Standing) : Prop :=
  b.wins < a.wins ∨
    (a.wins = b.wins ∧
      (a.losses < b.losses ∨ (a.losses = b.losses ∧ b.ties ≤ a.ties)))

instance : DecidableRel standOrder := fun a b => by
  unfold standOrder; infer_instance

instance : IsTotal Standing standOrder :=
  ⟨fun a b => by unfold standOrder; omega⟩

instance : IsTrans Standing standOrder :=
  ⟨fun a b c hab hbc => by unfold standOrder at *; omega⟩

/-- `get_standings()` (db.py lines 241-267): empty when no week is active;
otherwise group the rows of the active year by `discord_id`, count wins /
losses / ties / total, and order by the sort keys (row order within equal
sort keys is unspecified in SQL; a sort realises the `ORDER BY`). -/
def getStandings (s : DB) : List Standing :=
  match getActiveWeekRow s with
  | none => []
  | some w =>
    let rows := s.games.filter (fun g => decide (g.year = w.year))
    let ids := ((rows.map (fun g => g.discord_id)).dedup)
    List.insertionSort standOrder (ids.map (standingFor rows))

/-- The `user_win` derivation in `ReportModal.on_submit`
(log_game.py lines 93-100, report.py lines 70-77), reached only with both
scores present. -/
def deriveUserWin (us osc : Int) : Option Bool :=
  if us > osc then some true
  else if us < osc then some false
  else none

/-- The `result` dict built by the bye paths of `log_game.py`
(lines 198-207 and 241-250): no opponent, no scores, `user_win = None`,
`bye = True`. -/
def byeReport (uid : Int) : ReportInput :=
  { discord_id := uid, opponent_id := none, user_score := none,
    opponent_score := none, user_win := none, bye := true,
    notes := some "Bye week" }

/-- The `UNIQUE (week_num, discord_id)` key of a `games` row. -/
def keyOf (g : Game) : Int × Int := (g.week_num, g.discord_id)

/-- All keys of a `games` table state. -/
def keysOf (gs : List Game) : List (Int × Int) := gs.map keyOf

/-- The schema constraint `UNIQUE (week_num, discord_id)` on `games`. -/
def KeysNodup (gs : List Game) : Prop := (keysOf gs).Nodup

/-- `SELECT * FROM games WHERE week_num = $1 AND discord_id = $2`
(`get_game` in db.py; also the probe other proofs use). -/
def findG (gs : List Game) (week d : Int) : Option Game :=
  gs.find? (fun g => decide (g.week_num = week ∧ g.discord_id = d))

/-- Number of `weeks` rows with `active = TRUE`. -/
def activeCount (s : DB) : Nat :=
  (s.weeks.filter (fun w => w.active)).length

/-- Whether a report is a user-vs-user game per `add_result` (db.py lines
138-144): a non-null, non-bye opponent whose team some user owns. -/
def isUserGameReport (s : DB) (r : ReportInput) : Bool :=
  match r.opponent_id with
  | none => false
  | some o => if r.bye then false else (getUserByTeam s o).isSome

/-- `n` admin week advancements in a row (each `advance_week()` with
`now() = 5`). -/
def advanceTimes (s : DB) : Nat → DB
  | 0 => s
  | n + 1 => advanceTimes ((advanceWeek s 5).1) n

/-! ### Concrete fixtures (spec §8 scenario: coaches A and B, week (3, 2025)) -/

/-- Coach A, `discord_id 1`, owns team 10. -/
def uA : User := ⟨1, some 10, false, "A"⟩

/-- Coach B, `discord_id 2`, owns team 20. -/
def uB : User := ⟨2, some 20, false, "B"⟩

/-- The active week (3, 2025). -/
def wk3 : Week := ⟨3, 2025, true, 0⟩

/-- Two coaches, three teams (team 30 is computer-controlled), active week
(3, 2025), empty ledger. -/
def dbA : DB :=
  { users := [uA, uB],
    teams := [⟨10, "TA"⟩, ⟨20, "TB"⟩, ⟨30, "TC"⟩],
    weeks := [wk3],
    games := [] }

/-- A reports a 24-17 win over B's team. -/
def repAvsB : ReportInput :=
  { discord_id := 1, opponent_id := some 20, user_score := some 24,
    opponent_score := some 17, user_win := some true, bye := false,
    notes := none }

/-- A reports a game against A's own team (self-owned opponent). -/
def repSelf : ReportInput :=
  { discord_id := 1, opponent_id := some 10, user_score := some 24,
    opponent_score := some 17, user_win := some true, bye := false,
    notes := none }

/-- A reports a 10-20 loss to computer-controlled team 30. -/
def repAvsC : ReportInput :=
  { discord_id := 1, opponent_id := some 30, user_score := some 10,
    opponent_score := some 20, user_win := some false, bye := false,
    notes := none }

/-- Same directory but with bowl week 17 of 2025 active. -/
def db17 : DB := { dbA with weeks := [⟨17, 2025, true, 0⟩] }

/-- `dbA` after both coaches have a game row for week 3. -/
def dbFull : DB :=
  { dbA with games :=
      [⟨3, 2025, 1, some 20, some 24, some 17, some true, false, true, 1, 1⟩,
       ⟨3, 2025, 2, some 10, some 17, some 24, some false, false, true, 1, 1⟩] }

/-- `dbA` with an existing week-3 user-vs-user row for coach A. -/
def dbPrior : DB :=
  { dbA with games :=
      [⟨3, 2025, 1, some 20, some 24, some 17, some true, false, true, 0, 0⟩] }

/-- The single surviving row after A reports a game against A's own team:
the mirror upsert conflicts with the primary row and overwrites it with the
swapped perspective. -/
def selfGameRow : Game :=
  ⟨3, 2025, 1, some 10, some 17, some 24, some false, false, true, 1, 1⟩

/-- The state `addResult dbA repSelf 1` produces. -/
def dbSelfAfter : DB := { dbA with games := [selfGameRow] }

/-- Coach A's row as committed by the first statement of `add_result` alone
(`user_game` still at its column default). -/
def midGameRow : Game :=
  ⟨3, 2025, 1, some 20, some 24, some 17, some true, false, false, 1, 1⟩

/-- The durable state if `add_result` stops after its first auto-committed
statement during A's report against B: a one-sided user-vs-user game. -/
def midState : DB := { dbA with games := [midGameRow] }

/-- The dict `advance_week` returns when advancing from bowl week 17:
its `week_num` entry was overwritten with the label string. -/
def bowlRet : RetWeekRow := ⟨CellVal.str "Bowl Week 1", 2025, true, 1, []⟩

/-! ### Helper lemmas about the upsert and the mark statement -/

lemma keyOf_updGame (g : Game) (opp : Option Int) (us osc : Option Int)
    (uw : Option Bool) (b : Bool) (t : Nat) :
    keyOf (updGame g opp us osc uw b t) = keyOf g := rfl

lemma findG_upsertGame_self (gs : List Game) (week year d : Int)
    (opp : Option Int) (us osc : Option Int) (uw : Option Bool) (b : Bool) (t : Nat) :
    findG (upsertGame gs week year d opp us osc uw b t) week d =
      some (match findG gs week d with
            | some g => updGame g opp us osc uw b t
            | none => freshGame week year d opp us osc uw b t) := by
  induction gs with
  | nil => simp [upsertGame, findG, freshGame]
  | cons g rest ih =>
    by_cases h : g.week_num = week ∧ g.discord_id = d
    · simp [upsertGame, findG, h, updGame]
    · simp only [upsertGame, if_neg h]
      rw [findG, List.find?_cons_of_neg, findG, List.find?_cons_of_neg]
      · exact ih
      · simpa using h
      · simpa using h

lemma findG_upsertGame_other (gs : List Game) (week year d : Int)
    (opp : Option Int) (us osc : Option Int) (uw : Option Bool) (b : Bool) (t : Nat)
    (week' d' : Int) (hne : ¬(week' = week ∧ d' = d)) :
    findG (upsertGame gs week year d opp us osc uw b t) week' d' =
      findG gs week' d' := by
  induction gs with
  | nil =>
    simp only [upsertGame, findG, freshGame, List.find?]
    have : ¬(week = week' ∧ d = d') := fun h => hne ⟨h.1.symm, h.2.symm⟩
    simp [this]
  | cons g rest ih =>
    by_cases h : g.week_num = week ∧ g.discord_id = d
    · simp only [upsertGame, if_pos h]
      have hg : ¬(g.week_num = week' ∧ g.discord_id = d') := by
        rintro ⟨h1, h2⟩
        exact hne ⟨by rw [← h1, h.1], by rw [← h2, h.2]⟩
      rw [findG, List.find?_cons_of_neg, findG, List.find?_cons_of_neg]
      · simpa using hg
      · simpa [updGame] using hg
    · simp only [upsertGame, if_neg h]
      by_cases hg : g.week_num = week' ∧ g.discord_id = d'
      · simp [findG, hg]
      · rw [findG, List.find?_cons_of_neg, findG, List.find?_cons_of_neg]
        · exact ih
        · simpa using hg
        · simpa using hg

lemma findG_map (f : Game → Game)
    (hf : ∀ g, (f g).week_num = g.week_num ∧ (f g).discord_id = g.discord_id)
    (gs : List Game) (week d : Int) :
    findG (gs.map f) week d = (findG gs week d).map f := by
  induction gs with
  | nil => simp [findG]
  | cons g rest ih =>
    by_cases h : g.week_num = week ∧ g.discord_id = d
    · have hfg : (f g).week_num = week ∧ (f g).discord_id = d := by
        rw [(hf g).1, (hf g).2]; exact h
      simp [findG, h, hfg]
    · have hfg : ¬((f g).week_num = week ∧ (f g).discord_id = d) := by
        rw [(hf g).1, (hf g).2]; exact h
      rw [List.map_cons, findG, List.find?_cons_of_neg, findG, List.find?_cons_of_neg]
      · exact ih
      · simpa using h
      · simpa using hfg

lemma markUserGames_eq_map (gs : List Game) (week d1 d2 : Int) (t : Nat) :
    markUserGames gs week d1 d2 t =
      gs.map (fun g =>
        if g.week_num = week ∧ (g.discord_id = d1 ∨ g.discord_id = d2) then
          { g with user_game := true, updated_at := t }
        else g) := rfl

lemma markFun_key (week d1 d2 : Int) (t : Nat) (g : Game) :
    ((fun g : Game =>
        if g.week_num = week ∧ (g.discord_id = d1 ∨ g.discord_id = d2) then
          { g with user_game := true, updated_at := t }
        else g) g).week_num = g.week_num ∧
    ((fun g : Game =>
        if g.week_num = week ∧ (g.discord_id = d1 ∨ g.discord_id = d2) then
          { g with user_game := true, updated_at := t }
        else g) g).discord_id = g.discord_id := by
  dsimp only
  split <;> simp

lemma keysOf_map (f : Game → Game)
    (hf : ∀ g, (f g).week_num = g.week_num ∧ (f g).discord_id = g.discord_id)
    (gs : List Game) :
    keysOf (gs.map f) = keysOf gs := by
  simp only [keysOf, List.map_map]
  apply List.map_congr_left
  intro g _
  simp only [Function.comp_apply, keyOf]
  rw [(hf g).1, (hf g).2]

lemma findG_eq_none_iff (gs : List Game) (week d : Int) :
    findG gs week d = none ↔ (week, d) ∉ keysOf gs := by
  simp only [findG, List.find?_eq_none, keysOf, List.mem_map, keyOf,
    decide_eq_true_eq]
  constructor
  · rintro h ⟨g, hmem, hkey⟩
    exact h g hmem ⟨congrArg Prod.fst hkey, congrArg Prod.snd hkey⟩
  · rintro h g hmem ⟨h1, h2⟩
    exact h ⟨g, hmem, by rw [h1, h2]⟩

lemma keysOf_upsertGame_mem (gs : List Game) (week year d : Int)
    (opp : Option Int) (us osc : Option Int) (uw : Option Bool) (b : Bool) (t : Nat)
    (h : (week, d) ∈ keysOf gs) :
    keysOf (upsertGame gs week year d opp us osc uw b t) = keysOf gs := by
  induction gs with
  | nil => simp [keysOf] at h
  | cons g rest ih =>
    by_cases hg : g.week_num = week ∧ g.discord_id = d
    · simp [upsertGame, hg, keysOf, keyOf, updGame]
    · have h' : (week, d) ∈ keysOf rest := by
        rcases (by simpa [keysOf, keyOf] using h) with h0 | h0
        · exact absurd ⟨h0.1.symm, h0.2.symm⟩ hg
        · simpa [keysOf, keyOf] using h0
      simp only [upsertGame, if_neg hg, keysOf, List.map_cons] at *
      rw [ih h']

lemma keysOf_upsertGame_not_mem (gs : List Game) (week year d : Int)
    (opp : Option Int) (us osc : Option Int) (uw : Option Bool) (b : Bool) (t : Nat)
    (h : (week, d) ∉ keysOf gs) :
    keysOf (upsertGame gs week year d opp us osc uw b t) =
      keysOf gs ++ [(week, d)] := by
  induction gs with
  | nil => simp [upsertGame, keysOf, keyOf, freshGame]
  | cons g rest ih =>
    by_cases hg : g.week_num = week ∧ g.discord_id = d
    · exact absurd (by simp [keysOf, keyOf, hg.1, hg.2]) h
    · have h' : (week, d) ∉ keysOf rest := fun hm =>
        h (by simp [keysOf] at hm ⊢; exact Or.inr hm)
      simp only [upsertGame, if_neg hg, keysOf, List.map_cons] at *
      rw [ih h']
      simp

lemma keysNodup_upsertGame (gs : List Game) (week year d : Int)
    (opp : Option Int) (us osc : Option Int) (uw : Option Bool) (b : Bool) (t : Nat)
    (h : KeysNodup gs) :
    KeysNodup (upsertGame gs week year d opp us osc uw b t) := by
  by_cases hm : (week, d) ∈ keysOf gs
  · rw [KeysNodup, keysOf_upsertGame_mem gs week year d opp us osc uw b t hm]
    exact h
  · rw [KeysNodup, keysOf_upsertGame_not_mem gs week year d opp us osc uw b t hm]
    simp only [List.nodup_append, List.nodup_cons, List.not_mem_nil,
      not_false_iff, List.nodup_nil, and_true, true_and]
    constructor
    · exact h
    · intro k hk
      simp only [List.mem_singleton]
      rintro rfl
      exact hm hk

/-- Counting rows by a predicate on keys only. -/
lemma countP_keys (gs : List Game) (q : Int × Int → Bool) :
    (gs.countP (fun g => q (keyOf g))) = (keysOf gs).countP q := by
  simp [keysOf, List.countP_map]
  rfl

lemma countP_or_disjoint {α : Type} (p q : α → Bool)
    (h : ∀ a, ¬(p a = true ∧ q a = true)) :
    ∀ l : List α, l.countP (fun a => p a || q a) = l.countP p + l.countP q := by
  intro l
  induction l with
  | nil => simp
  | cons a l ih =>
    by_cases hp : p a = true
    · have hq : ¬(q a = true) := fun hq => h a ⟨hp, hq⟩
      simp [List.countP_cons, hp, hq, ih]
      omega
    · by_cases hq : q a = true
      · simp [List.countP_cons, hp, hq, ih]
        omega
      · simp [List.countP_cons, hp, hq, ih]

lemma countP_eq_one_of_nodup_mem {α : Type} [DecidableEq α] {l : List α} {x : α}
    (hnd : l.Nodup) (hx : x ∈ l) :
    l.countP (fun k => decide (k = x)) = 1 := by
  induction l with
  | nil => simp at hx
  | cons a l ih =>
    rcases List.mem_cons.mp hx with rfl | hxl
    · have hnotin : x ∉ l := (List.nodup_cons.mp hnd).1
      have : l.countP (fun k => decide (k = x)) = 0 := by
        rw [List.countP_eq_zero]
        intro a ha
        simp only [decide_eq_true_eq]
        rintro rfl
        exact hnotin ha
      simp [List.countP_cons, this]
    · have ha : a ≠ x := by
        rintro rfl
        exact (List.nodup_cons.mp hnd).1 hxl
      have := ih (List.nodup_cons.mp hnd).2 hxl
      simp [List.countP_cons, ha, this]

lemma findG_some_key {gs : List Game} {week d : Int} {g : Game}
    (h : findG gs week d = some g) :
    g.week_num = week ∧ g.discord_id = d := by
  have := List.find?_some h
  simpa using this

lemma findG_some_mem {gs : List Game} {week d : Int} {g : Game}
    (h : findG gs week d = some g) : g ∈ gs :=
  List.mem_of_find?_eq_some h

lemma findG_some_mem_keys {gs : List Game} {week d : Int} {g : Game}
    (h : findG gs week d = some g) : (week, d) ∈ keysOf gs := by
  rcases findG_some_key h with ⟨h1, h2⟩
  exact List.mem_map.mpr ⟨g, findG_some_mem h, by simp [keyOf, h1, h2]⟩

/-- Unfolding of `add_result` on the user-vs-user path: primary upsert,
mirror upsert, mark. -/
lemma addResult_eq_of_user_game (s : DB) (r : ReportInput) (t : Nat)
    (w : Week) (opp : Int) (owner : User)
    (hw : getActiveWeekRow s = some w)
    (hopp : r.opponent_id = some opp)
    (hbye : r.bye = false)
    (howner : getUserByTeam s opp = some owner) :
    addResult s r t =
      some
        { s with
          games :=
            markUserGames
              (upsertGame
                (upsertGame s.games w.week_num w.year r.discord_id r.opponent_id
                  r.user_score r.opponent_score r.user_win r.bye t)
                w.week_num w.year owner.discord_id (reporterTeamId s r.discord_id)
                r.opponent_score r.user_score (mirrorWin r.user_win) false t)
              w.week_num r.discord_id owner.discord_id t } := by
  rw [addResult, hw]
  dsimp only
  rw [hopp]
  dsimp only
  rw [hbye]
  simp only [Bool.false_eq_true, if_false]
  rw [howner]

/-- C1 (amended: the opponent team's owner must be a coach other than the
reporter): for such a report, `add_result` leaves exactly two `games` rows at
the active week for the pair, the reporter's row as given, the opponent's row
with scores swapped, `user_win` negated (`None` preserved) and `opponent_id`
equal to the reporter's own `team_id`, both rows marked `user_game = TRUE`. -/
theorem addResult_mirrors_user_game
    (s : DB) (r : ReportInput) (t : Nat) (w : Week) (opp : Int) (owner : User)
    (hnodup : KeysNodup s.games)
    (hw : getActiveWeekRow s = some w)
    (hopp : r.opponent_id = some opp)
    (hbye : r.bye = false)
    (howner : getUserByTeam s opp = some owner)
    (hne : owner.discord_id ≠ r.discord_id) :
    ∃ s', addResult s r t = some s' ∧
      s'.users = s.users ∧ s'.weeks = s.weeks ∧
      (s'.games.filter (fun g =>
          decide (g.week_num = w.week_num ∧
            (g.discord_id = r.discord_id ∨ g.discord_id = owner.discord_id)))).length
        = 2 ∧
      (∃ gR, findG s'.games w.week_num r.discord_id = some gR ∧
        gR.opponent_id = some opp ∧ gR.user_score = r.user_score ∧
        gR.opp_score = r.opponent_score ∧ gR.user_win = r.user_win ∧
        gR.bye = false ∧ gR.user_game = true) ∧
      (∃ gO, findG s'.games w.week_num owner.discord_id = some gO ∧
        gO.opponent_id = reporterTeamId s r.discord_id ∧
        gO.user_score = r.opponent_score ∧ gO.opp_score = r.user_score ∧
        gO.user_win = mirrorWin r.user_win ∧
        gO.bye = false ∧ gO.user_game = true) := by
  classical
  have hneq : r.discord_id ≠ owner.discord_id := fun h => hne h.symm
  set W := w.week_num with hW
  set Y := w.year with hY
  set rid := r.discord_id with hrid
  set oid := owner.discord_id with hoid
  set g1 := upsertGame s.games W Y rid r.opponent_id
      r.user_score r.opponent_score r.user_win r.bye t with hg1
  set g2 := upsertGame g1 W Y oid (reporterTeamId s rid)
      r.opponent_score r.user_score (mirrorWin r.user_win) false t with hg2
  set markF := fun g : Game =>
      if g.week_num = W ∧ (g.discord_id = rid ∨ g.discord_id = oid) then
        { g with user_game := true, updated_at := t }
      else g with hmarkF
  have hmkey : ∀ g, (markF g).week_num = g.week_num ∧
      (markF g).discord_id = g.discord_id := markFun_key W rid oid t
  have heq : addResult s r t = some { s with games := markUserGames g2 W rid oid t } :=
    addResult_eq_of_user_game s r t w opp owner hw hopp hbye howner
  refine ⟨_, heq, rfl, rfl, ?_, ?_, ?_⟩
  · -- exactly two rows at the pair of keys
    show ((markUserGames g2 W rid oid t).filter _).length = 2
    have hnd1 : KeysNodup g1 :=
      keysNodup_upsertGame s.games W Y rid r.opponent_id
        r.user_score r.opponent_score r.user_win r.bye t hnodup
    have hnd2 : KeysNodup g2 :=
      keysNodup_upsertGame g1 W Y oid (reporterTeamId s rid)
        r.opponent_score r.user_score (mirrorWin r.user_win) false t hnd1
    have hkeys3 : keysOf (markUserGames g2 W rid oid t) = keysOf g2 := by
      rw [markUserGames_eq_map]
      exact keysOf_map _ (markFun_key W rid oid t) g2
    have hmemR : (W, rid) ∈ keysOf g2 := by
      have h1 := findG_upsertGame_self s.games W Y rid r.opponent_id
        r.user_score r.opponent_score r.user_win r.bye t
      have h2 := findG_upsertGame_other g1 W Y oid (reporterTeamId s rid)
        r.opponent_score r.user_score (mirrorWin r.user_win) false t W rid
        (by rintro ⟨-, h⟩; exact hneq h)
      rw [← hg1] at h1
      rw [← hg2, h1] at h2
      exact findG_some_mem_keys h2
    have hmemO : (W, oid) ∈ keysOf g2 := by
      have h2 := findG_upsertGame_self g1 W Y oid (reporterTeamId s rid)
        r.opponent_score r.user_score (mirrorWin r.user_win) false t
      rw [← hg2] at h2
      exact findG_some_mem_keys h2
    rw [← List.countP_eq_length_filter]
    have hpq : ((markUserGames g2 W rid oid t).countP (fun g =>
        decide (g.week_num = W ∧ (g.discord_id = rid ∨ g.discord_id = oid))))
        = ((keysOf (markUserGames g2 W rid oid t)).countP (fun k =>
            decide (k.1 = W ∧ (k.2 = rid ∨ k.2 = oid)))) := by
      rw [keysOf, List.countP_map]
      rfl
    rw [hpq, hkeys3]
    have hsplit : ((keysOf g2).countP (fun k =>
        decide (k.1 = W ∧ (k.2 = rid ∨ k.2 = oid))))
        = ((keysOf g2).countP (fun k => decide (k = (W, rid))))
          + ((keysOf g2).countP (fun k => decide (k = (W, oid)))) := by
      rw [← countP_or_disjoint (fun k => decide (k = (W, rid)))
          (fun k => decide (k = (W, oid)))
          (by
            rintro ⟨k1, k2⟩ ⟨ha, hb⟩
            simp only [decide_eq_true_eq, Prod.mk.injEq] at ha hb
            exact hneq (by rw [← ha.2, hb.2]))]
      apply List.countP_congr
      rintro ⟨k1, k2⟩ -
      simp only [decide_eq_true_eq, Bool.or_eq_true, Prod.mk.injEq]
      constructor
      · rintro ⟨rfl, h2 | h2⟩
        · exact Or.inl ⟨rfl, h2⟩
        · exact Or.inr ⟨rfl, h2⟩
      · rintro (⟨rfl, rfl⟩ | ⟨rfl, rfl⟩)
        · exact ⟨rfl, Or.inl rfl⟩
        · exact ⟨rfl, Or.inr rfl⟩
    rw [hsplit, countP_eq_one_of_nodup_mem hnd2 hmemR,
      countP_eq_one_of_nodup_mem hnd2 hmemO]
  · -- the reporter's row
    show ∃ gR, findG (markUserGames g2 W rid oid t) W rid = some gR ∧ _
    have h2 : findG g2 W rid = findG g1 W rid :=
      findG_upsertGame_other g1 W Y oid (reporterTeamId s rid)
        r.opponent_score r.user_score (mirrorWin r.user_win) false t W rid
        (by rintro ⟨-, h⟩; exact hneq h)
    have h1 := findG_upsertGame_self s.games W Y rid r.opponent_id
      r.user_score r.opponent_score r.user_win r.bye t
    rw [← hg1] at h1
    have h3 : findG (markUserGames g2 W rid oid t) W rid
        = (findG g2 W rid).map markF := by
      rw [markUserGames_eq_map]
      exact findG_map markF hmkey g2 W rid
    rw [h3, h2, h1]
    cases hfound : findG s.games W rid with
    | none =>
      refine ⟨_, rfl, ?_⟩
      simp [markF, freshGame, hopp, hbye]
    | some g0 =>
      refine ⟨_, rfl, ?_⟩
      rcases findG_some_key hfound with ⟨hk1, hk2⟩
      simp [markF, updGame, hopp, hbye, hk1, hk2]
  · -- the opponent's mirrored row
    show ∃ gO, findG (markUserGames g2 W rid oid t) W oid = some gO ∧ _
    have h2 := findG_upsertGame_self g1 W Y oid (reporterTeamId s rid)
      r.opponent_score r.user_score (mirrorWin r.user_win) false t
    rw [← hg2] at h2
    have h3 : findG (markUserGames g2 W rid oid t) W oid
        = (findG g2 W oid).map markF := by
      rw [markUserGames_eq_map]
      exact findG_map markF hmkey g2 W oid
    rw [h3, h2]
    cases hfound : findG g1 W oid with
    | none =>
      refine ⟨_, rfl, ?_⟩
      simp [markF, freshGame]
    | some g0 =>
      refine ⟨_, rfl, ?_⟩
      rcases findG_some_key hfound with ⟨hk1, hk2⟩
      simp [markF, updGame, hk1, hk2]

/-- Unfolding of `add_result` on the paths that skip the mirror (no
opponent, a bye, or an opponent team no user owns): only the primary upsert
runs. -/
lemma addResult_eq_no_mirror (s : DB) (r : ReportInput) (t : Nat) (w : Week)
    (hw : getActiveWeekRow s = some w)
    (hsimple : r.opponent_id = none ∨ r.bye = true ∨
      (∃ o, r.opponent_id = some o ∧ getUserByTeam s o = none)) :
    addResult s r t =
      some
        { s with
          games :=
            upsertGame s.games w.week_num w.year r.discord_id r.opponent_id
              r.user_score r.opponent_score r.user_win r.bye t } := by
  rw [addResult, hw]
  dsimp only
  rcases hsimple with h | h | ⟨o, ho, howner⟩
  · rw [h]
  · cases hopp : r.opponent_id with
    | none => rfl
    | some o =>
      dsimp only
      rw [h]
      simp
  · rw [ho]
    dsimp only
    cases hbye : r.bye with
    | true => simp
    | false =>
      simp only [Bool.false_eq_true, if_false]
      rw [howner]

/-- `add_result` never touches `users`, `teams` or `weeks`. -/
lemma addResult_preserves (s : DB) (r : ReportInput) (t : Nat) (s' : DB)
    (h : addResult s r t = some s') :
    s'.users = s.users ∧ s'.teams = s.teams ∧ s'.weeks = s.weeks := by
  unfold addResult at h
  cases hw : getActiveWeekRow s with
  | none => rw [hw] at h; cases h
  | some w =>
    rw [hw] at h
    dsimp only at h
    cases hopp : r.opponent_id with
    | none =>
      rw [hopp] at h
      injection h with h
      rw [← h]
      exact ⟨rfl, rfl, rfl⟩
    | some o =>
      rw [hopp] at h
      dsimp only at h
      by_cases hbye : r.bye
      · rw [if_pos hbye] at h
        injection h with h
        rw [← h]
        exact ⟨rfl, rfl, rfl⟩
      · rw [if_neg hbye] at h
        cases howner : getUserByTeam s o with
        | none =>
          rw [howner] at h
          injection h with h
          rw [← h]
          exact ⟨rfl, rfl, rfl⟩
        | some owner =>
          rw [howner] at h
          injection h with h
          rw [← h]
          exact ⟨rfl, rfl, rfl⟩

/-- Under the unique-key constraint, a present key accounts for exactly one
row. -/
lemma countKey_eq_one {gs : List Game} {week d : Int}
    (hnd : KeysNodup gs) (hmem : (week, d) ∈ keysOf gs) :
    gs.countP (fun g => decide (g.week_num = week ∧ g.discord_id = d)) = 1 := by
  have h1 : gs.countP (fun g => decide (g.week_num = week ∧ g.discord_id = d))
      = (keysOf gs).countP (fun k => decide (k.1 = week ∧ k.2 = d)) := by
    rw [keysOf, List.countP_map]
    rfl
  rw [h1]
  have h2 : (keysOf gs).countP (fun k => decide (k.1 = week ∧ k.2 = d))
      = (keysOf gs).countP (fun k => decide (k = (week, d))) := by
    apply List.countP_congr
    rintro ⟨k1, k2⟩ -
    simp [Prod.ext_iff]
  rw [h2]
  exact countP_eq_one_of_nodup_mem hnd hmem

/-- The reporter's own row after `add_result`: the report's payload fields
with `updated_at` refreshed, while `year` and `created_at` are carried over
from a conflicting row (the `DO UPDATE` SET list omits them), and
`user_game` is the old flag OR-ed with whether this report is user-vs-user.
The mirror, when it runs, must target another coach (`hmir`), as the mirror
upsert would otherwise overwrite this very row. -/
lemma addResult_findG_reporter (s : DB) (r : ReportInput) (t : Nat) (w : Week)
    (hw : getActiveWeekRow s = some w)
    (hmir : ∀ o owner, r.opponent_id = some o →
      getUserByTeam s o = some owner → owner.discord_id ≠ r.discord_id) :
    ∃ s', addResult s r t = some s' ∧
      s'.users = s.users ∧ s'.teams = s.teams ∧ s'.weeks = s.weeks ∧
      (KeysNodup s.games → KeysNodup s'.games) ∧
      ∃ g', findG s'.games w.week_num r.discord_id = some g' ∧
        g'.opponent_id = r.opponent_id ∧ g'.user_score = r.user_score ∧
        g'.opp_score = r.opponent_score ∧ g'.user_win = r.user_win ∧
        g'.bye = r.bye ∧ g'.updated_at = t ∧
        g'.year = (match findG s.games w.week_num r.discord_id with
                   | some g0 => g0.year
                   | none => w.year) ∧
        g'.created_at = (match findG s.games w.week_num r.discord_id with
                   | some g0 => g0.created_at
                   | none => t) ∧
        g'.user_game = ((match findG s.games w.week_num r.discord_id with
                   | some g0 => g0.user_game
                   | none => false) || isUserGameReport s r) := by
  classical
  set W := w.week_num with hW
  set Y := w.year with hY
  set rid := r.discord_id with hriddef
  have hself := findG_upsertGame_self s.games W Y rid r.opponent_id
    r.user_score r.opponent_score r.user_win r.bye t
  cases hopp : r.opponent_id with
  | none =>
    refine ⟨_, addResult_eq_no_mirror s r t w hw (Or.inl hopp), rfl, rfl, rfl,
      ?_, ?_⟩
    · intro hnd
      exact keysNodup_upsertGame s.games W Y rid r.opponent_id
        r.user_score r.opponent_score r.user_win r.bye t hnd
    · rw [hself]
      refine ⟨_, rfl, ?_⟩
      cases hfound : findG s.games W rid with
      | none => simp [freshGame, isUserGameReport, hopp]
      | some g0 => simp [updGame, isUserGameReport, hopp]
  | some o =>
    cases hbye : r.bye with
    | true =>
      refine ⟨_, addResult_eq_no_mirror s r t w hw (Or.inr (Or.inl hbye)), rfl,
        rfl, rfl, ?_, ?_⟩
      · intro hnd
        exact keysNodup_upsertGame s.games W Y rid r.opponent_id
          r.user_score r.opponent_score r.user_win r.bye t hnd
      · rw [hself]
        refine ⟨_, rfl, ?_⟩
        cases hfound : findG s.games W rid with
        | none => simp [freshGame, isUserGameReport, hopp, hbye]
        | some g0 => simp [updGame, isUserGameReport, hopp, hbye]
    | false =>
      cases howner : getUserByTeam s o with
      | none =>
        refine ⟨_, addResult_eq_no_mirror s r t w hw
          (Or.inr (Or.inr ⟨o, hopp, howner⟩)), rfl, rfl, rfl, ?_, ?_⟩
        · intro hnd
          exact keysNodup_upsertGame s.games W Y rid r.opponent_id
            r.user_score r.opponent_score r.user_win r.bye t hnd
        · rw [hself]
          refine ⟨_, rfl, ?_⟩
          cases hfound : findG s.games W rid with
          | none => simp [freshGame, isUserGameReport, hopp, hbye, howner]
          | some g0 => simp [updGame, isUserGameReport, hopp, hbye, howner]
      | some owner =>
        have hneq : r.discord_id ≠ owner.discord_id :=
          fun h => hmir o owner hopp howner h.symm
        set oid := owner.discord_id with hoiddef
        set g1 := upsertGame s.games W Y rid r.opponent_id
            r.user_score r.opponent_score r.user_win r.bye t with hg1
        set g2 := upsertGame g1 W Y oid (reporterTeamId s rid)
            r.opponent_score r.user_score (mirrorWin r.user_win) false t with hg2
        set markF := fun g : Game =>
            if g.week_num = W ∧ (g.discord_id = rid ∨ g.discord_id = oid) then
              { g with user_game := true, updated_at := t }
            else g with hmarkF
    -- the whole user-game write
        refine ⟨_, addResult_eq_of_user_game s r t w o owner hw hopp hbye howner,
          rfl, rfl, rfl, ?_, ?_⟩
        · intro hnd
          have hnd1 : KeysNodup g1 :=
            keysNodup_upsertGame s.games W Y rid r.opponent_id
              r.user_score r.opponent_score r.user_win r.bye t hnd
          have hnd2 : KeysNodup g2 :=
            keysNodup_upsertGame g1 W Y oid (reporterTeamId s rid)
              r.opponent_score r.user_score (mirrorWin r.user_win) false t hnd1
          show KeysNodup (markUserGames g2 W rid oid t)
          rw [KeysNodup, markUserGames_eq_map,
            keysOf_map _ (markFun_key W rid oid t) g2]
          exact hnd2
        · have h2 : findG g2 W rid = findG g1 W rid :=
            findG_upsertGame_other g1 W Y oid (reporterTeamId s rid)
              r.opponent_score r.user_score (mirrorWin r.user_win) false t W rid
              (by rintro ⟨-, h⟩; exact hneq h)
          have h3 : findG (markUserGames g2 W rid oid t) W rid
              = (findG g2 W rid).map markF := by
            rw [markUserGames_eq_map]
            exact findG_map markF (markFun_key W rid oid t) g2 W rid
          have hret : findG (markUserGames g2 W rid oid t) W rid
              = some (markF (match findG s.games W rid with
                | some g => updGame g r.opponent_id r.user_score
                    r.opponent_score r.user_win r.bye t
                | none => freshGame W Y rid r.opponent_id r.user_score
                    r.opponent_score r.user_win r.bye t)) := by
            rw [h3, h2, hself]
            rfl
          refine ⟨_, hret, ?_⟩
          cases hfound : findG s.games W rid with
          | none =>
            simp [markF, freshGame, isUserGameReport, hopp, hbye, howner]
          | some g0 =>
            rcases findG_some_key hfound with ⟨hk1, hk2⟩
            simp [markF, updGame, isUserGameReport, hopp, hbye, howner, hk1, hk2]

lemma advanceToNextWeek_weeks (s : DB) (wn y : Int) (t : Nat) :
    (advanceToNextWeek s wn y t).1.weeks =
      s.weeks.map (fun v => if v.active then { v with active := false } else v)
        ++ [{ week_num := (nextWeekPair wn y).1, year := (nextWeekPair wn y).2,
              active := true, created_at := t }] := rfl

lemma advanceToNextWeek_rest (s : DB) (wn y : Int) (t : Nat) :
    (advanceToNextWeek s wn y t).1.users = s.users ∧
    (advanceToNextWeek s wn y t).1.teams = s.teams ∧
    (advanceToNextWeek s wn y t).1.games = s.games := ⟨rfl, rfl, rfl⟩

lemma activeCount_advanceToNextWeek (s : DB) (wn y : Int) (t : Nat) :
    activeCount (advanceToNextWeek s wn y t).1 = 1 := by
  unfold activeCount
  rw [advanceToNextWeek_weeks, List.filter_append]
  have h1 : (s.weeks.map (fun v => if v.active then { v with active := false } else v)).filter
      (fun w => w.active) = [] := by
    rw [List.filter_eq_nil_iff]
    intro v hv
    rcases List.mem_map.mp hv with ⟨v0, -, rfl⟩
    by_cases h : v0.active <;> simp [h]
  rw [h1]
  rfl

/-- C3 counterexample: advancing from bowl week (17, 2025) returns a week
dict whose `week_num` entry is the string label `"Bowl Week 1"`, not the
calendar pair's `18` — the claim's "returns a new active week row whose pair
equals (week_num+1, year)" fails for weeks 17-20. -/
theorem C3_counterexample :
    getActiveWeekRow db17 = some ⟨17, 2025, true, 0⟩ ∧
    (advanceWeek db17 1).2 = some bowlRet ∧
    bowlRet.week_num = CellVal.str "Bowl Week 1" ∧
    bowlRet.week_num ≠ CellVal.int 18 ∧
    (advanceWeek db17 1).1.weeks =
      [⟨17, 2025, false, 0⟩, ⟨18, 2025, true, 1⟩] := by
  refine ⟨rfl, by decide, rfl, by decide, by decide⟩

/-- C3 (amended): `advance_week` always deactivates the active week and
inserts the new active row per the calendar rule — `(21, Y) ↦ (0, Y+1)`,
else `(w+1, Y)` — and the returned dict carries that pair, except that for
`week_num` 17-20 its `week_num` entry is replaced by the label
`"Bowl Week (week_num % 16)"`.  In particular advancing from `(21, Y)`
returns week 0 of year `Y+1`, and from `(5, Y)` week 6 of year `Y`. -/
theorem advanceWeek_calendar (s : DB) (t : Nat) (w : Week)
    (hw : getActiveWeekRow s = some w) :
    ∃ ret, advanceWeek s t = ((advanceToNextWeek s w.week_num w.year t).1, some ret) ∧
      (advanceToNextWeek s w.week_num w.year t).1.weeks =
        s.weeks.map (fun v => if v.active then { v with active := false } else v)
          ++ [{ week_num := (nextWeekPair w.week_num w.year).1,
                year := (nextWeekPair w.week_num w.year).2,
                active := true, created_at := t }] ∧
      ret.year = (nextWeekPair w.week_num w.year).2 ∧
      (w.week_num = 21 → ret.week_num = CellVal.int 0 ∧ ret.year = w.year + 1) ∧
      (w.week_num ≠ 21 → ret.year = w.year) ∧
      (w.week_num ≠ 21 → 16 < w.week_num →
        ret.week_num = CellVal.str ("Bowl Week " ++ toString (w.week_num % 16))) ∧
      (w.week_num ≠ 21 → ¬16 < w.week_num →
        ret.week_num = CellVal.int (w.week_num + 1)) := by
  rw [advanceWeek, hw]
  dsimp only
  refine ⟨_, rfl, rfl, ?_, ?_, ?_, ?_, ?_⟩
  · by_cases h21 : w.week_num = 21 <;>
      by_cases h16 : w.week_num = 16 <;>
      by_cases hgt : 16 < w.week_num <;>
      simp [advanceToNextWeek, nextWeekPair, h21, h16, hgt]
  · intro h21
    simp [advanceToNextWeek, nextWeekPair, h21]
  · intro h21
    by_cases h16 : w.week_num = 16 <;> by_cases hgt : 16 < w.week_num <;>
      simp [advanceToNextWeek, nextWeekPair, h21, h16, hgt]
  · intro h21 hgt
    have h16 : w.week_num ≠ 16 := by omega
    simp [advanceToNextWeek, nextWeekPair, h21, h16, hgt]
  · intro h21 hgt
    by_cases h16 : w.week_num = 16 <;>
      simp [advanceToNextWeek, nextWeekPair, h21, h16, hgt]

/-- Witness for `advanceWeek_calendar` at the concrete state `dbA`
(active week (3, 2025)). -/
theorem advanceWeek_calendar_witness :
    getActiveWeekRow dbA = some wk3 ∧
    (∃ ret, advanceWeek dbA 1 = ((advanceToNextWeek dbA wk3.week_num wk3.year 1).1, some ret) ∧
      (advanceToNextWeek dbA wk3.week_num wk3.year 1).1.weeks =
        dbA.weeks.map (fun v => if v.active then { v with active := false } else v)
          ++ [{ week_num := (nextWeekPair wk3.week_num wk3.year).1,
                year := (nextWeekPair wk3.week_num wk3.year).2,
                active := true, created_at := 1 }] ∧
      ret.year = (nextWeekPair wk3.week_num wk3.year).2 ∧
      (wk3.week_num = 21 → ret.week_num = CellVal.int 0 ∧ ret.year = wk3.year + 1) ∧
      (wk3.week_num ≠ 21 → ret.year = wk3.year) ∧
      (wk3.week_num ≠ 21 → 16 < wk3.week_num →
        ret.week_num = CellVal.str ("Bowl Week " ++ toString (wk3.week_num % 16))) ∧
      (wk3.week_num ≠ 21 → ¬16 < wk3.week_num →
        ret.week_num = CellVal.int (wk3.week_num + 1))) :=
  ⟨rfl, advanceWeek_calendar dbA 1 wk3 rfl⟩

/-- C4: `maybe_auto_advance_week` is a no-op (returns `None`, state
untouched) while the distinct-reporter count for the active `week_num` is
below the user count or the user count is zero; once reporters reach the
user count (and it is positive) it performs exactly one advancement per the
calendar rule and returns the new week row. -/
theorem maybeAutoAdvanceWeek_spec (s : DB) (t : Nat) (w : Week)
    (hw : getActiveWeekRow s = some w) :
    ((usersReportCounts s w.week_num).1 = 0 →
      maybeAutoAdvanceWeek s t = (s, none)) ∧
    ((usersReportCounts s w.week_num).2 < (usersReportCounts s w.week_num).1 →
      maybeAutoAdvanceWeek s t = (s, none)) ∧
    (0 < (usersReportCounts s w.week_num).1 →
      (usersReportCounts s w.week_num).1 ≤ (usersReportCounts s w.week_num).2 →
      maybeAutoAdvanceWeek s t =
        ((advanceToNextWeek s w.week_num w.year t).1,
          some (advanceToNextWeek s w.week_num w.year t).2) ∧
      (advanceToNextWeek s w.week_num w.year t).1.weeks =
        s.weeks.map (fun v => if v.active then { v with active := false } else v)
          ++ [{ week_num := (nextWeekPair w.week_num w.year).1,
                year := (nextWeekPair w.week_num w.year).2,
                active := true, created_at := t }]) := by
  rw [maybeAutoAdvanceWeek, hw]
  dsimp only
  refine ⟨?_, ?_, ?_⟩
  · intro h0
    rw [if_pos h0]
  · intro hlt
    by_cases h0 : (usersReportCounts s w.week_num).1 = 0
    · rw [if_pos h0]
    · rw [if_neg h0, if_pos hlt]
  · intro hpos hle
    rw [if_neg (by omega), if_neg (by omega)]
    exact ⟨rfl, rfl⟩

/-- Witness for `maybeAutoAdvanceWeek_spec`: at `dbA` (2 users, 0
reporters) the no-op branch applies; at `dbFull` (2 users, 2 reporters) the
advancing branch applies. -/
theorem maybeAutoAdvanceWeek_spec_witness :
    getActiveWeekRow dbFull = some wk3 ∧
    (usersReportCounts dbFull wk3.week_num = (2, 2) ∧
      maybeAutoAdvanceWeek dbFull 7 =
        ((advanceToNextWeek dbFull wk3.week_num wk3.year 7).1,
          some (advanceToNextWeek dbFull wk3.week_num wk3.year 7).2)) ∧
    (getActiveWeekRow dbA = some wk3 ∧ usersReportCounts dbA wk3.week_num = (2, 0) ∧
      maybeAutoAdvanceWeek dbA 7 = (dbA, none)) :=
  ⟨rfl,
   ⟨by decide,
    ((maybeAutoAdvanceWeek_spec dbFull 7 wk3 rfl).2.2 (by decide) (by decide)).1⟩,
   ⟨rfl, by decide,
    (maybeAutoAdvanceWeek_spec dbA 7 wk3 rfl).2.1 (by decide)⟩⟩

/-- C5: starting from a state with at most one active week, every operation
preserves "at most one `weeks` row is active": `advance_week` and
`maybe_auto_advance_week` leave exactly one active row when they advance,
`add_result` does not touch `weeks` at all, and an advancement is exactly
"deactivate everything active, insert one new active row". -/
theorem activeWeek_at_most_one (s : DB) (r : ReportInput) (t : Nat)
    (h : activeCount s ≤ 1) :
    activeCount (advanceWeek s t).1 ≤ 1 ∧
    activeCount (maybeAutoAdvanceWeek s t).1 ≤ 1 ∧
    (∀ s', addResult s r t = some s' → activeCount s' = activeCount s) ∧
    (∀ wn y, activeCount (advanceToNextWeek s wn y t).1 = 1 ∧
      (advanceToNextWeek s wn y t).1.weeks =
        s.weeks.map (fun v => if v.active then { v with active := false } else v)
          ++ [{ week_num := (nextWeekPair wn y).1, year := (nextWeekPair wn y).2,
                active := true, created_at := t }]) := by
  refine ⟨?_, ?_, ?_, ?_⟩
  · rw [advanceWeek]
    cases hw : getActiveWeekRow s with
    | none => exact h
    | some w =>
      dsimp only
      rw [activeCount_advanceToNextWeek]
  · rw [maybeAutoAdvanceWeek]
    cases hw : getActiveWeekRow s with
    | none => exact h
    | some w =>
      dsimp only
      by_cases h0 : (usersReportCounts s w.week_num).1 = 0
      · rw [if_pos h0]; exact h
      · rw [if_neg h0]
        by_cases hlt : (usersReportCounts s w.week_num).2 <
            (usersReportCounts s w.week_num).1
        · rw [if_pos hlt]; exact h
        · rw [if_neg hlt]
          dsimp only
          rw [activeCount_advanceToNextWeek]
  · intro s' hs'
    rw [activeCount, activeCount, (addResult_preserves s r t s' hs').2.2]
  · intro wn y
    exact ⟨activeCount_advanceToNextWeek s wn y t, advanceToNextWeek_weeks s wn y t⟩

/-- Witness for `activeWeek_at_most_one` at `dbA`. -/
theorem activeWeek_at_most_one_witness :
    activeCount dbA ≤ 1 ∧
    activeCount (advanceWeek dbA 1).1 ≤ 1 ∧
    activeCount (maybeAutoAdvanceWeek dbA 1).1 ≤ 1 ∧
    (∀ s', addResult dbA repAvsB 1 = some s' → activeCount s' = activeCount dbA) ∧
    (∀ wn y, activeCount (advanceToNextWeek dbA wn y 1).1 = 1 ∧
      (advanceToNextWeek dbA wn y 1).1.weeks =
        dbA.weeks.map (fun v => if v.active then { v with active := false } else v)
          ++ [{ week_num := (nextWeekPair wn y).1, year := (nextWeekPair wn y).2,
                active := true, created_at := 1 }]) :=
  ⟨by decide, activeWeek_at_most_one dbA repAvsB 1 (by decide)⟩

/-- C6: the outcome derived from two submitted scores is win for a greater
own score, loss for a smaller one, `None` for a tie; a bye report stores
`user_win = None` (and no scores). -/
theorem user_win_derivation (a b : Int) (uid : Int) :
    (a > b → deriveUserWin a b = some true) ∧
    (a < b → deriveUserWin a b = some false) ∧
    (a = b → deriveUserWin a b = none) ∧
    (byeReport uid).user_win = none ∧
    (byeReport uid).user_score = none ∧
    (byeReport uid).opponent_score = none ∧
    (byeReport uid).bye = true := by
  refine ⟨?_, ?_, ?_, rfl, rfl, rfl, rfl⟩
  · intro h
    rw [deriveUserWin, if_pos h]
  · intro h
    rw [deriveUserWin, if_neg (by omega), if_pos h]
  · intro h
    rw [deriveUserWin, if_neg (by omega), if_neg (by omega)]

/-- Witness for `user_win_derivation` at scores (24, 17), (10, 20), (7, 7). -/
theorem user_win_derivation_witness :
    ((24 : Int) > 17 ∧ deriveUserWin 24 17 = some true) ∧
    ((10 : Int) < 20 ∧ deriveUserWin 10 20 = some false) ∧
    ((7 : Int) = 7 ∧ deriveUserWin 7 7 = none) ∧
    (byeReport 1).user_win = none :=
  ⟨⟨by decide, (user_win_derivation 24 17 1).1 (by decide)⟩,
   ⟨by decide, (user_win_derivation 10 20 1).2.1 (by decide)⟩,
   ⟨rfl, (user_win_derivation 7 7 1).2.2.1 rfl⟩,
   (user_win_derivation 0 0 1).2.2.2.1⟩

/-- C1 counterexample: when the reported opponent team is owned by the
reporter themself (allowed by the claim's "owned by some coach"), the mirror
upsert conflicts with the reporter's own row and overwrites it: only ONE row
remains for that week, and it is not the reporter's report "as given" (its
scores are the swapped ones). -/
theorem C1_counterexample :
    repSelf.opponent_id = some 10 ∧ repSelf.bye = false ∧
    getUserByTeam dbA 10 = some uA ∧
    addResult dbA repSelf 1 = some dbSelfAfter ∧
    (dbSelfAfter.games.filter (fun g =>
        decide (g.week_num = wk3.week_num ∧
          (g.discord_id = repSelf.discord_id ∨ g.discord_id = uA.discord_id)))).length
      = 1 ∧
    findG dbSelfAfter.games wk3.week_num repSelf.discord_id = some selfGameRow ∧
    selfGameRow.user_score = some 17 ∧ repSelf.user_score = some 24 :=
  ⟨rfl, rfl, by decide, by decide, by decide, by decide, rfl, rfl⟩

/-- Witness for `addResult_mirrors_user_game`: the spec §8 scenario — A
(team 10) reports 24-17 over B's team 20 in week (3, 2025). -/
theorem addResult_mirrors_user_game_witness :
    KeysNodup dbA.games ∧ getActiveWeekRow dbA = some wk3 ∧
    repAvsB.opponent_id = some 20 ∧ repAvsB.bye = false ∧
    getUserByTeam dbA 20 = some uB ∧ uB.discord_id ≠ repAvsB.discord_id ∧
    (∃ s', addResult dbA repAvsB 1 = some s' ∧
      s'.users = dbA.users ∧ s'.weeks = dbA.weeks ∧
      (s'.games.filter (fun g =>
          decide (g.week_num = wk3.week_num ∧
            (g.discord_id = repAvsB.discord_id ∨ g.discord_id = uB.discord_id)))).length
        = 2 ∧
      (∃ gR, findG s'.games wk3.week_num repAvsB.discord_id = some gR ∧
        gR.opponent_id = some 20 ∧ gR.user_score = repAvsB.user_score ∧
        gR.opp_score = repAvsB.opponent_score ∧ gR.user_win = repAvsB.user_win ∧
        gR.bye = false ∧ gR.user_game = true) ∧
      (∃ gO, findG s'.games wk3.week_num uB.discord_id = some gO ∧
        gO.opponent_id = reporterTeamId dbA repAvsB.discord_id ∧
        gO.user_score = repAvsB.opponent_score ∧ gO.opp_score = repAvsB.user_score ∧
        gO.user_win = mirrorWin repAvsB.user_win ∧
        gO.bye = false ∧ gO.user_game = true)) :=
  ⟨by unfold KeysNodup; decide, rfl, rfl, rfl, by decide, by decide,
   addResult_mirrors_user_game dbA repAvsB 1 wk3 20 uB
     (by unfold KeysNodup; decide) rfl rfl rfl (by decide) (by decide)⟩

/-- C2: `add_result` runs its primary upsert, mirror upsert and user_game
mark as three separate auto-committed statements (`_execute` acquires a
fresh pooled connection per statement and opens no transaction), so the
state after only the first statement is durable: for A's user-vs-user report
it holds A's row while B has none — a one-sided user-vs-user game that the
claimed atomicity says could never survive.  It also differs from both the
initial state and the completed state. -/
theorem addResult_not_atomic :
    isUserGameReport dbA repAvsB = true ∧
    addResultFirstStatement dbA repAvsB 1 = some midState ∧
    findG midState.games wk3.week_num repAvsB.discord_id = some midGameRow ∧
    findG midState.games wk3.week_num uB.discord_id = none ∧
    midState ≠ dbA ∧
    addResult dbA repAvsB 1 ≠ some midState :=
  ⟨by decide, by decide, by decide, by decide, by decide, by decide⟩

/-- C7 counterexample: A's week-3 report of 2025 (a user-vs-user game) is
re-reported in week 3 of 2026 against computer team 30 after the season
rolls over.  Exactly one row survives for the key (3, 1), but its `year` is
still 2025 (not the 2026 the last report was attributed to) and `user_game`
is still `true` (though the last report is not a user game): the upsert's
`DO UPDATE` does not overwrite `year` or `user_game`, so the claim's "no
field of the prior report retained except created_at" fails. -/
theorem C7_counterexample :
    ((addResult dbA repAvsB 1).map (fun s1 =>
        getActiveWeekRow (advanceTimes s1 22))) =
      some (some ⟨3, 2026, true, 5⟩) ∧
    ((addResult dbA repAvsB 1).map (fun s1 =>
        isUserGameReport (advanceTimes s1 22) repAvsC)) = some false ∧
    ((addResult dbA repAvsB 1).bind (fun s1 =>
        addResult (advanceTimes s1 22) repAvsC 2)).map (fun s2 =>
          findG s2.games 3 1) =
      some (some ⟨3, 2025, 1, some 30, some 10, some 20, some false, false,
        true, 1, 2⟩) ∧
    ((addResult dbA repAvsB 1).bind (fun s1 =>
        addResult (advanceTimes s1 22) repAvsC 2)).map (fun s2 =>
          s2.games.countP (fun g => decide (g.week_num = 3 ∧ g.discord_id = 1))) =
      some 1 ∧
    (2025 : Int) ≠ 2026 ∧ repAvsC.user_win = some false :=
  ⟨by decide, by decide, by decide, by decide, by decide, rfl⟩

/-- C7 (amended): re-reporting the same `(week_num, discord_id)` key leaves
exactly one row for it; `opponent_id`, the scores, `user_win`, `bye` come
from the last report and `updated_at` is refreshed, but `created_at` and
`year` are retained from the prior row, and `user_game` is the prior flag
OR-ed with whether the new report is user-vs-user (never reset).  (When the
new report's mirror runs it targets another coach.) -/
theorem addResult_upsert_last_wins (s : DB) (r : ReportInput) (t : Nat)
    (w : Week) (gOld : Game)
    (hnodup : KeysNodup s.games)
    (hw : getActiveWeekRow s = some w)
    (hold : findG s.games w.week_num r.discord_id = some gOld)
    (hmir : ∀ o owner, r.opponent_id = some o →
      getUserByTeam s o = some owner → owner.discord_id ≠ r.discord_id) :
    ∃ s', addResult s r t = some s' ∧
      s'.games.countP (fun g =>
        decide (g.week_num = w.week_num ∧ g.discord_id = r.discord_id)) = 1 ∧
      ∃ g', findG s'.games w.week_num r.discord_id = some g' ∧
        g'.opponent_id = r.opponent_id ∧ g'.user_score = r.user_score ∧
        g'.opp_score = r.opponent_score ∧ g'.user_win = r.user_win ∧
        g'.bye = r.bye ∧ g'.updated_at = t ∧
        g'.created_at = gOld.created_at ∧ g'.year = gOld.year ∧
        g'.user_game = (gOld.user_game || isUserGameReport s r) := by
  obtain ⟨s', heq, -, -, -, hnd', g', hfind, ho, hus, hos, huw, hb, hup, hyr, hca, hug⟩ :=
    addResult_findG_reporter s r t w hw hmir
  rw [hold] at hyr hca hug
  exact ⟨s', heq,
    countKey_eq_one (hnd' hnodup) (findG_some_mem_keys hfind),
    g', hfind, ho, hus, hos, huw, hb, hup, hca, hyr, hug⟩

/-- Witness for `addResult_upsert_last_wins`: A re-reports week 3 against
computer team 30 over an existing user-vs-user row. -/
theorem addResult_upsert_last_wins_witness :
    KeysNodup dbPrior.games ∧ getActiveWeekRow dbPrior = some wk3 ∧
    findG dbPrior.games wk3.week_num repAvsC.discord_id =
      some ⟨3, 2025, 1, some 20, some 24, some 17, some true, false, true, 0, 0⟩ ∧
    (∃ s', addResult dbPrior repAvsC 2 = some s' ∧
      s'.games.countP (fun g =>
        decide (g.week_num = wk3.week_num ∧ g.discord_id = repAvsC.discord_id)) = 1 ∧
      ∃ g', findG s'.games wk3.week_num repAvsC.discord_id = some g' ∧
        g'.opponent_id = repAvsC.opponent_id ∧ g'.user_score = repAvsC.user_score ∧
        g'.opp_score = repAvsC.opponent_score ∧ g'.user_win = repAvsC.user_win ∧
        g'.bye = repAvsC.bye ∧ g'.updated_at = 2 ∧
        g'.created_at = (0 : Nat) ∧ g'.year = (2025 : Int) ∧
        g'.user_game = (true || isUserGameReport dbPrior repAvsC)) :=
  ⟨by unfold KeysNodup; decide, rfl, by decide,
   addResult_upsert_last_wins dbPrior repAvsC 2 wk3
     ⟨3, 2025, 1, some 20, some 24, some 17, some true, false, true, 0, 0⟩
     (by unfold KeysNodup; decide) rfl (by decide)
     (by
       intro o owner h1 h2
       injection h1 with h1
       rw [← h1] at h2
       rw [show getUserByTeam dbPrior 30 = none from by decide] at h2
       cases h2)⟩

/-- C9: `has_played_team_this_year` is true iff some `games` row matches the
coach, the opponent team and the active week's year; in particular it is
true right after `add_result` freshly stores such a report under the active
year, and false when every matching fixture is under a different year. -/
theorem hasPlayedTeamThisYear_spec (s : DB) (d opp : Int) (w : Week)
    (hw : getActiveWeekRow s = some w) :
    (hasPlayedTeamThisYear s d opp = true ↔
      ∃ g ∈ s.games, g.discord_id = d ∧ g.opponent_id = some opp ∧
        g.year = w.year) ∧
    ((∀ g ∈ s.games, g.discord_id = d → g.opponent_id = some opp →
        g.year ≠ w.year) →
      hasPlayedTeamThisYear s d opp = false) ∧
    (∀ r t s', r.discord_id = d → r.opponent_id = some opp →
      findG s.games w.week_num d = none →
      (∀ o owner, r.opponent_id = some o → getUserByTeam s o = some owner →
        owner.discord_id ≠ r.discord_id) →
      addResult s r t = some s' →
      hasPlayedTeamThisYear s' d opp = true) := by
  have hiff : hasPlayedTeamThisYear s d opp = true ↔
      ∃ g ∈ s.games, g.discord_id = d ∧ g.opponent_id = some opp ∧
        g.year = w.year := by
    rw [hasPlayedTeamThisYear, hw]
    simp only [List.any_eq_true, decide_eq_true_eq]
  refine ⟨hiff, ?_, ?_⟩
  · intro hall
    cases hb : hasPlayedTeamThisYear s d opp with
    | false => rfl
    | true =>
      rcases hiff.mp hb with ⟨g, hg, h1, h2, h3⟩
      exact absurd h3 (hall g hg h1 h2)
  · intro r t s' hrd hro hfresh hmir heq
    obtain ⟨s'', heq', -, -, hwk, -, g', hfind, ho, -, -, -, -, -, hyr, -, -⟩ :=
      addResult_findG_reporter s r t w hw hmir
    rw [heq] at heq'
    injection heq' with heq'
    rw [← heq'] at hwk hfind
    rw [hrd] at hfind
    rw [hrd, hfresh] at hyr
    have hw' : getActiveWeekRow s' = some w := by
      rw [getActiveWeekRow, hwk]
      exact hw
    rw [hasPlayedTeamThisYear, hw']
    simp only [List.any_eq_true, decide_eq_true_eq]
    refine ⟨g', findG_some_mem hfind, (findG_some_key hfind).2, ?_, hyr⟩
    rw [ho, hro]

/-- Witness for `hasPlayedTeamThisYear_spec`: at `dbPrior` (A has played
team 20 in 2025) and a fresh report by B against team 10. -/
theorem hasPlayedTeamThisYear_spec_witness :
    getActiveWeekRow dbPrior = some wk3 ∧
    hasPlayedTeamThisYear dbPrior 1 20 = true ∧
    (∃ g ∈ dbPrior.games, g.discord_id = 1 ∧ g.opponent_id = some 20 ∧
      g.year = wk3.year) ∧
    ((∀ g ∈ dbPrior.games, g.discord_id = 2 → g.opponent_id = some 10 →
        g.year ≠ wk3.year) →
      hasPlayedTeamThisYear dbPrior 2 10 = false) :=
  ⟨rfl, by decide,
   (hasPlayedTeamThisYear_spec dbPrior 1 20 wk3 rfl).1.mp (by decide),
   (hasPlayedTeamThisYear_spec dbPrior 2 10 wk3 rfl).2.1⟩

/-- C8: `get_standings` groups the active year's rows by coach, counting
wins (`user_win = TRUE`), losses (`FALSE`) and ties (`NULL`, byes included),
and returns the groups ordered by wins descending, then losses ascending,
then ties descending. -/
theorem getStandings_spec (s : DB) (w : Week)
    (hw : getActiveWeekRow s = some w) :
    List.Sorted standOrder (getStandings s) ∧
    (getStandings s).Perm
      ((((s.games.filter (fun g => decide (g.year = w.year))).map
          (fun g => g.discord_id)).dedup).map
        (standingFor (s.games.filter (fun g => decide (g.year = w.year))))) ∧
    ∀ st ∈ getStandings s,
      st.wins = s.games.countP (fun g =>
        decide (g.year = w.year ∧ g.discord_id = st.discord_id ∧
          g.user_win = some true)) ∧
      st.losses = s.games.countP (fun g =>
        decide (g.year = w.year ∧ g.discord_id = st.discord_id ∧
          g.user_win = some false)) ∧
      st.ties = s.games.countP (fun g =>
        decide (g.year = w.year ∧ g.discord_id = st.discord_id ∧
          g.user_win = none)) ∧
      st.total_games = s.games.countP (fun g =>
        decide (g.year = w.year ∧ g.discord_id = st.discord_id)) := by
  rw [getStandings, hw]
  dsimp only
  refine ⟨List.sorted_insertionSort standOrder _,
    List.perm_insertionSort standOrder _, ?_⟩
  intro st hst
  have hmem := (List.perm_insertionSort standOrder _).subset hst
  rcases List.mem_map.mp hmem with ⟨d, -, rfl⟩
  have hcount : ∀ p : Game → Bool,
      (((s.games.filter (fun g => decide (g.year = w.year))).filter
        (fun g => decide (g.discord_id = d))).countP p)
      = s.games.countP (fun g =>
          decide (g.year = w.year) && (decide (g.discord_id = d) && p g)) := by
    intro p
    rw [List.countP_filter, List.countP_filter]
    apply List.countP_congr
    intro g _
    constructor
    · intro h
      simp only [Bool.and_eq_true] at h ⊢
      exact ⟨h.2, h.1.2, h.1.1⟩
    · intro h
      simp only [Bool.and_eq_true] at h ⊢
      exact ⟨⟨h.2.2, h.2.1⟩, h.1⟩
  refine ⟨?_, ?_, ?_, ?_⟩
  · show (((s.games.filter (fun g => decide (g.year = w.year))).filter
        (fun g => decide (g.discord_id = d))).filter
        (fun g => decide (g.user_win = some true))).length = _
    rw [← List.countP_eq_length_filter, hcount]
    apply List.countP_congr
    intro g _
    simp only [Bool.and_eq_true, decide_eq_true_eq]
    tauto
  · show (((s.games.filter (fun g => decide (g.year = w.year))).filter
        (fun g => decide (g.discord_id = d))).filter
        (fun g => decide (g.user_win = some false))).length = _
    rw [← List.countP_eq_length_filter, hcount]
    apply List.countP_congr
    intro g _
    simp only [Bool.and_eq_true, decide_eq_true_eq]
    tauto
  · show (((s.games.filter (fun g => decide (g.year = w.year))).filter
        (fun g => decide (g.discord_id = d))).filter
        (fun g => decide (g.user_win = none))).length = _
    rw [← List.countP_eq_length_filter, hcount]
    apply List.countP_congr
    intro g _
    simp only [Bool.and_eq_true, decide_eq_true_eq]
    tauto
  · show ((s.games.filter (fun g => decide (g.year = w.year))).filter
        (fun g => decide (g.discord_id = d))).length = _
    rw [← List.countP_eq_length_filter, List.countP_filter]
    apply List.countP_congr
    intro g _
    simp only [Bool.and_eq_true, decide_eq_true_eq]
    tauto

/-- Witness for `getStandings_spec` at `dbFull` (A one win, B one loss). -/
theorem getStandings_spec_witness :
    getActiveWeekRow dbFull = some wk3 ∧
    getStandings dbFull = [⟨1, 1, 0, 0, 1⟩, ⟨2, 0, 1, 0, 1⟩] ∧
    List.Sorted standOrder (getStandings dbFull) ∧
    ∀ st ∈ getStandings dbFull,
      st.wins = dbFull.games.countP (fun g =>
        decide (g.year = wk3.year ∧ g.discord_id = st.discord_id ∧
          g.user_win = some true)) :=
  ⟨rfl, by decide, (getStandings_spec dbFull wk3 rfl).1,
   fun st hst => ((getStandings_spec dbFull wk3 rfl).2.2 st hst).1⟩

/-- C10: `add_result` never reads the report's `notes` field — two inputs
differing only in `notes` produce identical stored state. -/
theorem addResult_ignores_notes (s : DB) (r : ReportInput)
    (n : Option String) (t : Nat) :
    addResult s { r with notes := n } t = addResult s r t := rfl

end CfbBot
